import Mathlib

/-!
Verification of the S3 storage driver (src/storagedriver/s3/s3.go).

The Go driver is shallowly embedded: each Go function relevant to the
verified properties is translated into a Lean definition over `Nat`
(Go `uint64` values; the chunk-size doubling loop keeps `chunkSize`
below `2 ^ 63` whenever `size < 2 ^ 64`, so `uint64` wraparound is
unreachable and plain `Nat` arithmetic agrees with the Go semantics on
the whole `uint64` domain), and the remote S3 store and the input
reader are passed in as explicit result values / functions (the Go code
never retries a store call, so a call's outcome is just a value).
-/

namespace S3

/-- Constant `minChunkSize` from s3.go:20: the minimum multipart upload chunk
size, 5MB. -/
def minChunkSize : Nat := 5 * 1024 * 1024

/-- Constant `listPartsMax` from s3.go:23: the largest number of parts S3 serves
in one request, also used as the part-count bound by the chunk loop. -/
def listPartsMax : Nat := 1000

/-- The chunk-size doubling loop at the top of `WriteStream`
(s3.go:139-142): `for size/chunkSize >= listPartsMax { chunkSize *= 2 }`. -/
def writeChunkSize (size chunkSize : Nat) : Nat :=
  if h : listPartsMax ≤ size / chunkSize then
    writeChunkSize size (chunkSize * 2)
  else
    chunkSize
termination_by size / chunkSize
decreasing_by
  have h1000 : 0 < size / chunkSize := by
    have : (1000 : Nat) ≤ size / chunkSize := by simpa [listPartsMax] using h
    omega
  calc size / (chunkSize * 2) = size / chunkSize / 2 := by
        rw [Nat.div_div_eq_div_mul]
    _ < size / chunkSize := Nat.div_lt_self h1000 (by omega)

/-- Function `deriveChunkSize` (spec section 4.1): the chunk size `WriteStream` derives
for a declared total `size`, starting the doubling loop at
`minChunkSize` (s3.go:139). -/
def deriveChunkSize (size : Nat) : Nat :=
  writeChunkSize size minChunkSize

theorem writeChunkSize_spec (size : Nat) :
    ∀ c, 0 < c →
      ∃ k, writeChunkSize size c = c * 2 ^ k ∧
        size / (c * 2 ^ k) < listPartsMax ∧
        ∀ j, j < k → listPartsMax ≤ size / (c * 2 ^ j) := by
  have base : ∀ c, ¬ listPartsMax ≤ size / c →
      ∃ k, writeChunkSize size c = c * 2 ^ k ∧
        size / (c * 2 ^ k) < listPartsMax ∧
        ∀ j, j < k → listPartsMax ≤ size / (c * 2 ^ j) := by
    intro c hcond
    refine ⟨0, ?_, ?_, ?_⟩
    · rw [writeChunkSize]; simp [hcond]
    · have h1 : c * 2 ^ 0 = c := by ring
      rw [h1]; omega
    · intro j hj; omega
  have main : ∀ n c, size / c ≤ n → 0 < c →
      ∃ k, writeChunkSize size c = c * 2 ^ k ∧
        size / (c * 2 ^ k) < listPartsMax ∧
        ∀ j, j < k → listPartsMax ≤ size / (c * 2 ^ j) := by
    intro n
    induction n with
    | zero =>
      intro c hn hc
      refine base c ?_
      simp [listPartsMax]; omega
    | succ n ih =>
      intro c hn hc
      by_cases hcond : listPartsMax ≤ size / c
      · have hstep : writeChunkSize size c = writeChunkSize size (c * 2) := by
          rw [writeChunkSize]; simp [hcond]
        have hdec : size / (c * 2) < size / c := by
          calc size / (c * 2) = size / c / 2 := by rw [Nat.div_div_eq_div_mul]
            _ < size / c := Nat.div_lt_self (by simp [listPartsMax] at hcond; omega) (by omega)
        obtain ⟨k, hk, hlt, hall⟩ := ih (c * 2) (by omega) (by omega)
        refine ⟨k + 1, ?_, ?_, ?_⟩
        · rw [hstep, hk]; ring
        · have : c * 2 * 2 ^ k = c * 2 ^ (k + 1) := by ring
          rwa [this] at hlt
        · intro j hj
          cases j with
          | zero => simpa using hcond
          | succ j =>
            have : c * 2 ^ (j + 1) = c * 2 * 2 ^ j := by ring
            rw [this]
            exact hall j (by omega)
      · exact base c hcond
  intro c hc
  exact main (size / c) c le_rfl hc

theorem deriveChunkSize_12MB : deriveChunkSize 12582912 = 5242880 := by
  rw [deriveChunkSize, writeChunkSize]
  norm_num [minChunkSize, listPartsMax]

theorem deriveChunkSize_5MB : deriveChunkSize 5242880 = 5242880 := by
  rw [deriveChunkSize, writeChunkSize]
  norm_num [minChunkSize, listPartsMax]

theorem deriveChunkSize_one : deriveChunkSize 1 = 5242880 := by
  rw [deriveChunkSize, writeChunkSize]
  norm_num [minChunkSize, listPartsMax]

theorem deriveChunkSize_5GB : deriveChunkSize 5242880000 = 10485760 := by
  rw [deriveChunkSize, writeChunkSize, writeChunkSize]
  norm_num [minChunkSize, listPartsMax]

/-- A store-level error returned by the S3 client (Go `error` values
produced by the store): either an AWS error carrying a code string
(matched by `hasCode`, s3.go:313-316) or some other opaque error. -/
inductive StoreErr
  | aws (code : String)
  | other (n : Nat)
deriving DecidableEq, Repr

/-- The errors the driver returns to its callers: the
`storagedriver.PathNotFoundError` and `storagedriver.InvalidOffsetError`
taxonomy, a store error passed through unchanged, or a fatal reader
error passed through unchanged (s3.go:166-167). -/
inductive DriverError
  | pathNotFound (path : String)
  | invalidOffset (path : String) (offset : Nat)
  | store (e : StoreErr)
  | readFatal (e : Nat)
deriving DecidableEq, Repr

/-- An `s3.Part`: 1-based part number, byte size, and the opaque tag
returned by the store. -/
structure Part where
  n : Nat
  size : Nat
  etag : String := ""
deriving DecidableEq, Repr

/-- The `err` component of one `io.ReadFull` call (s3.go:163): `nil`,
`io.EOF`, `io.ErrUnexpectedEOF`, or any other (fatal) reader error. -/
inductive ReadEnd
  | ok
  | eof
  | unexpectedEOF
  | fail (e : Nat)
deriving DecidableEq, Repr

/-- Test `err != nil && err != io.ErrUnexpectedEOF && err != io.EOF`
(s3.go:166). -/
def ReadEnd.isFatal : ReadEnd → Bool
  | .fail _ => true
  | _ => false

/-- The `(bytesRead, err)` pair returned by one `io.ReadFull` call on
the input reader (s3.go:163). A reader is modelled as the list of the
successive results its `ReadFull` calls produce; once the list is
exhausted the reader keeps returning `(0, io.EOF)`. -/
structure ReadResult where
  bytesRead : Nat
  err : ReadEnd
deriving DecidableEq, Repr

instance {ε α : Type} [DecidableEq ε] [DecidableEq α] : DecidableEq (Except ε α) := fun x y =>
  match x, y with
  | .ok a, .ok b =>
    if h : a = b then isTrue (by rw [h]) else isFalse (fun hh => h (Except.ok.inj hh))
  | .error a, .error b =>
    if h : a = b then isTrue (by rw [h]) else isFalse (fun hh => h (Except.error.inj hh))
  | .ok _, .error _ => isFalse (fun hh => Except.noConfusion hh)
  | .error _, .ok _ => isFalse (fun hh => Except.noConfusion hh)

/-- Observable outcome of a `WriteStream` call: the value it returns,
the argument pairs `(partNumber, bytesRead)` of the successful
`multi.PutPart` calls it issued in order, and the parts list passed to
`multi.Complete` if completion was issued. -/
structure WSOutcome where
  result : Except DriverError Unit
  uploads : List (Nat × Nat)
  completed : Option (List Part)
deriving DecidableEq, Repr

/-- The streaming loop of `WriteStream` (s3.go:161-186). `putPart`
models `multi.PutPart` (s3.go:171) as a function of the part number and
the number of bytes `buf[0:bytesRead]` holds; `complete` models
`multi.Complete` (s3.go:178), whose result the Go code discards. The
`[]` case is the exhausted reader, whose `ReadFull` returns
`(0, io.EOF)`; its final arm (a full zero-byte read with
`totalRead ≠ size`) is reachable only when `chunkSize = 0`, which no
caller produces since `deriveChunkSize _ ≥ minChunkSize` — there the Go
loop would re-read the exhausted reader forever. -/
def writeLoop (putPart : Nat → Nat → Except StoreErr Part)
    (complete : List Part → Except StoreErr Unit)
    (chunkSize size : Nat) (partNumber totalRead : Nat) (parts : List Part) :
    List ReadResult → WSOutcome
  | [] =>
    if 0 < chunkSize ∧ totalRead + 0 ≠ size then
      ⟨.ok (), [], none⟩
    else
      match putPart partNumber 0 with
      | .error e => ⟨.error (.store e), [], none⟩
      | .ok part =>
        if totalRead + 0 = size then
          let _com := complete (parts ++ [part])
          ⟨.ok (), [(partNumber, 0)], some (parts ++ [part])⟩
        else
          ⟨.ok (), [(partNumber, 0)], none⟩
  | r :: rest =>
    match r.err with
    | .fail e => ⟨.error (.readFatal e), [], none⟩
    | _ =>
      if r.bytesRead < chunkSize ∧ totalRead + r.bytesRead ≠ size then
        ⟨.ok (), [], none⟩
      else
        match putPart partNumber r.bytesRead with
        | .error e => ⟨.error (.store e), [], none⟩
        | .ok part =>
          if totalRead + r.bytesRead = size then
            let _com := complete (parts ++ [part])
            ⟨.ok (), [(partNumber, r.bytesRead)], some (parts ++ [part])⟩
          else
            let out := writeLoop putPart complete chunkSize size
              (partNumber + 1) (totalRead + r.bytesRead) (parts ++ [part]) rest
            ⟨out.result, (partNumber, r.bytesRead) :: out.uploads, out.completed⟩

/-- Function `WriteStream` (s3.go:136-187). `getAllPartsRes` is the outcome of
the `d.getAllParts(path)` call (s3.go:146): the resolved session's
already-uploaded parts, or a store error. The read-error payload placed
in `DriverError.readFatal` is the payload of the `ReadEnd.fail` the
reader produced. -/
def WriteStream (getAllPartsRes : Except StoreErr (List Part))
    (putPart : Nat → Nat → Except StoreErr Part)
    (complete : List Part → Except StoreErr Unit)
    (path : String) (offset size : Nat) (events : List ReadResult) : WSOutcome :=
  let chunkSize := deriveChunkSize size
  match getAllPartsRes with
  | .error e => ⟨.error (.store e), [], none⟩
  | .ok parts =>
    if parts.length * chunkSize < offset ∨ (offset < size ∧ offset % chunkSize ≠ 0) then
      ⟨.error (.invalidOffset path offset), [], none⟩
    else if 0 < parts.length then
      writeLoop putPart complete chunkSize size (offset / chunkSize + 1) offset
        (parts.take (offset / chunkSize)) events
    else
      writeLoop putPart complete chunkSize size 1 0 parts events


theorem writeLoop_ne_invalidOffset (putPart : Nat → Nat → Except StoreErr Part)
    (complete : List Part → Except StoreErr Unit) (chunkSize size : Nat) :
    ∀ (events : List ReadResult) (partNumber totalRead : Nat) (parts : List Part)
      (p : String) (o : Nat),
      (writeLoop putPart complete chunkSize size partNumber totalRead parts events).result ≠
        Except.error (DriverError.invalidOffset p o) := by
  intro events
  induction events with
  | nil =>
    intro partNumber totalRead parts p o
    simp only [writeLoop]
    split
    · simp
    · split
      · simp
      · split <;> simp
  | cons r rest ih =>
    intro partNumber totalRead parts p o
    simp only [writeLoop]
    split
    · simp
    · split
      · simp
      · split
        · simp
        · split
          · simp
          · simpa using ih (partNumber + 1) (totalRead + r.bytesRead) _ p o

theorem writeLoop_error_completed_none (putPart : Nat → Nat → Except StoreErr Part)
    (complete : List Part → Except StoreErr Unit) (chunkSize size : Nat) :
    ∀ (events : List ReadResult) (partNumber totalRead : Nat) (parts : List Part)
      (e : DriverError),
      (writeLoop putPart complete chunkSize size partNumber totalRead parts events).result =
        Except.error e →
      (writeLoop putPart complete chunkSize size partNumber totalRead parts events).completed =
        none := by
  intro events
  induction events with
  | nil =>
    intro partNumber totalRead parts e
    simp only [writeLoop]
    split
    · simp
    · split
      · simp
      · split <;> simp
  | cons r rest ih =>
    intro partNumber totalRead parts e
    simp only [writeLoop]
    split
    · simp
    · split
      · simp
      · split
        · simp
        · split
          · simp
          · simpa using ih (partNumber + 1) (totalRead + r.bytesRead) _ e

/-- Function `CurrentSize` (s3.go:191-202): re-derives the size of the object at
`path` from the resolved session's part list (`getAllPartsRes` is the
outcome of the `d.getAllParts(path)` call, s3.go:192):
`(len(parts)-1)*parts[0].Size + parts[len(parts)-1].Size` when parts
exist, else 0. -/
def CurrentSize (getAllPartsRes : Except StoreErr (List Part)) : Except StoreErr Nat :=
  match getAllPartsRes with
  | .error e => .error e
  | .ok [] => .ok 0
  | .ok (p :: ps) =>
    .ok (((p :: ps).length - 1) * p.size + ((p :: ps).getLast (List.cons_ne_nil p ps)).size)

/-- An `s3.Multi`: one multipart upload session, with its object key
and its opaque upload identifier. -/
structure Multi where
  key : String
  uploadId : String
deriving DecidableEq, Repr

/-- Function `hasCode` (s3.go:313-316): true iff the error is an `aws.Error`
carrying the given code. -/
def hasCode (e : StoreErr) (code : String) : Bool :=
  match e with
  | .aws c => c = code
  | .other _ => false

/-- Go's byte-wise string comparison `a <= b`, on the characters of the
strings (UTF-8 byte order coincides with code-point order, so this
agrees with Go's `>=` test `strLe b a` on `m.UploadId >= uploadID`,
s3.go:292). Defined by hand because the kernel cannot evaluate
`String.decidableLE`. -/
def strLe : List Char → List Char → Bool
  | [], _ => true
  | _ :: _, [] => false
  | x :: xs, y :: ys => if x = y then strLe xs ys else decide (x < y)

/-- The selection loop of `getHighestIDMulti` (s3.go:288-296): starting
from `uploadID := ""` and a nil `multi`, scan the listed sessions and
keep the latest one whose key equals `path` exactly and whose upload id
is `>=` the best one seen so far. -/
def selectHighest (path : String) (multis : List Multi) : List Char × Option Multi :=
  multis.foldl
    (fun acc m =>
      if m.key = path ∧ strLe acc.1 m.uploadId.data = true then (m.uploadId.data, some m)
      else acc)
    ([], none)

/-- Function `getHighestIDMulti` (s3.go:282-301). `listRes` is the outcome of
`d.Bucket.ListMulti(path, "")`: the sessions listed (keys with prefix
`path`) together with an optional error; `initRes` is the outcome
`d.Bucket.InitMulti(...)` would produce if called. The Go function
returns a possibly-nil `*s3.Multi`, modelled as an `Option Multi`:
`.ok none` is the `return nil-multi, nil-error` outcome. -/
def getHighestIDMulti (listRes : List Multi × Option StoreErr)
    (initRes : Except StoreErr Multi) (path : String) : Except StoreErr (Option Multi) :=
  let body : Except StoreErr (Option Multi) :=
    if 0 < listRes.1.length then .ok (selectHighest path listRes.1).2
    else
      match initRes with
      | .error e => .error e
      | .ok m => .ok (some m)
  match listRes.2 with
  | some e => if hasCode e "NoSuchUpload" then body else .error e
  | none => body

/-- Whether `pre` is a character-wise prefix of `s`: Go's byte-prefix
match that `d.Bucket.List(path, "", "", listPartsMax)` performs on
object keys (s3.go:256). Defined by hand because the kernel cannot
evaluate `String.isPrefixOf`. -/
def strStartsWith : List Char → List Char → Bool
  | [], _ => true
  | _ :: _, [] => false
  | x :: xs, y :: ys => if x = y then strStartsWith xs ys else false

/-- One page of `d.Bucket.List(path, "", "", listPartsMax)` over a
bucket holding the object keys `store`: the keys under the prefix
`path`, at most `listPartsMax` of them (s3.go:256, 273). -/
def bucketList (store : List String) (path : String) : List String :=
  (store.filter fun k => strStartsWith path.data k.data).take listPartsMax

/-- The delete loop of `Delete` (s3.go:263-277): while the listing under
`path` is non-empty, batch-delete the listed keys and re-list. `delErr`
is the outcome every `d.Bucket.DelMulti` call produces; on a `DelMulti`
error the Go code returns `nil` (s3.go:269-271). Re-listing errors
(s3.go:273-276) are not fault-injected here. -/
def deleteLoop (path : String) (delErr : Option StoreErr) (store : List String) :
    Except DriverError Unit :=
  let contents := bucketList store path
  if h : 0 < contents.length then
    match delErr with
    | some _ => .ok ()
    | none => deleteLoop path delErr (store.filter fun k => !(contents.contains k))
  else
    .ok ()
termination_by store.length
decreasing_by
  have h' : 0 < (bucketList store path).length := h
  have hne : bucketList store path ≠ [] := by
    intro hnil
    rw [hnil] at h'
    simp at h'
  obtain ⟨c, hc⟩ := List.exists_mem_of_ne_nil _ hne
  have hcs : c ∈ store :=
    List.mem_of_mem_filter (List.mem_of_mem_take (by simpa [bucketList] using hc))
  refine List.length_filter_lt_length_iff_exists.mpr ⟨c, hcs, ?_⟩
  simp [List.contains, List.elem_iff, hc]

/-- Function `Delete` (s3.go:255-280): list everything under `path`; if the
initial listing errors (`listErr`) or is empty, return `PathNotFound`;
otherwise run the delete loop. -/
def Delete (listErr : Option StoreErr) (delErr : Option StoreErr)
    (store : List String) (path : String) : Except DriverError Unit :=
  match listErr with
  | some _ => .error (.pathNotFound path)
  | none =>
    if (bucketList store path).length = 0 then .error (.pathNotFound path)
    else deleteLoop path delErr store

/-- The first step of `List` (s3.go:207-209): inspect the last byte
`path[len(path)-1]` to decide whether to append the `/` separator.
`none` models the Go runtime panic: for the empty path,
`len(path)-1 = -1` is out of range and the indexing panics. -/
def listPathSlash (path : String) : Option String :=
  match path.data.get? (path.data.length - 1) with
  | none => none
  | some c => some (if c ≠ '/' then path ++ "/" else path)


/-- Claim C1: for every declared total size S, the chunk size C derived
at the start of `WriteStream` (starting from the 5MB minimum and
doubling while S/C is at least 1000) satisfies `C ≥ minChunkSize` and
`ceil(S/C) ≤ listPartsMax`; and the same S always yields the same C
(`deriveChunkSize` is a pure function of S, so the derivation is
deterministic). -/
theorem chunkSize_bounds (S : Nat) :
    minChunkSize ≤ deriveChunkSize S ∧
    (S + deriveChunkSize S - 1) / deriveChunkSize S ≤ listPartsMax ∧
    deriveChunkSize S = deriveChunkSize S := by
  obtain ⟨k, hk, hlt, -⟩ := writeChunkSize_spec S minChunkSize (by norm_num [minChunkSize])
  have h2k : 0 < 2 ^ k := Nat.pos_pow_of_pos k (by norm_num)
  have hpos : 0 < minChunkSize * 2 ^ k :=
    Nat.mul_pos (by norm_num [minChunkSize]) h2k
  rw [deriveChunkSize] at *
  rw [hk]
  refine ⟨?_, ?_, rfl⟩
  · exact le_mul_of_one_le_right (Nat.zero_le _) h2k
  · have hS : S < listPartsMax * (minChunkSize * 2 ^ k) :=
      (Nat.div_lt_iff_lt_mul hpos).mp hlt
    set C := minChunkSize * 2 ^ k with hC
    simp only [listPartsMax] at hS ⊢
    have h2 : S + C - 1 < 1001 * C := by omega
    have h3 : (S + C - 1) / C < 1001 := (Nat.div_lt_iff_lt_mul hpos).mpr h2
    omega

/-- Claim C6 counterexample: at S = 5242880000 = 1000·minChunkSize the
doubling loop picks 2·minChunkSize = 10485760, although the strictly
smaller power-of-two multiple minChunkSize·2^0 = minChunkSize already
satisfies ceil(S/C) ≤ listPartsMax (it gives exactly 1000 parts), so
the chosen chunk size is not the smallest power-of-two multiple of the
minimum meeting the ceiling bound. -/
theorem chunkSize_not_ceil_minimal :
    deriveChunkSize 5242880000 = 2 * minChunkSize ∧
    minChunkSize * 2 ^ 0 < deriveChunkSize 5242880000 ∧
    (5242880000 + minChunkSize * 2 ^ 0 - 1) / (minChunkSize * 2 ^ 0) ≤ listPartsMax := by
  rw [deriveChunkSize_5GB]
  norm_num [minChunkSize, listPartsMax]

/-- Claim C6 (amended): the chunk size chosen by the doubling loop is
the smallest chunk size of the form minChunkSize·2^k whose floor part
count S/C is strictly below listPartsMax (the loop's actual guard
`size/chunkSize >= listPartsMax`, equivalent to S < 1000·C): every
strictly smaller power-of-two multiple C of the minimum still has
S/C ≥ listPartsMax. -/
theorem chunkSize_guard_minimal (S : Nat) :
    (∃ k, deriveChunkSize S = minChunkSize * 2 ^ k) ∧
    S / deriveChunkSize S < listPartsMax ∧
    ∀ C, (∃ j, C = minChunkSize * 2 ^ j) → C < deriveChunkSize S →
      listPartsMax ≤ S / C := by
  obtain ⟨k, hk, hlt, hall⟩ := writeChunkSize_spec S minChunkSize (by norm_num [minChunkSize])
  rw [deriveChunkSize] at *
  refine ⟨⟨k, hk⟩, by rwa [hk], ?_⟩
  rintro C ⟨j, rfl⟩ hC
  rw [hk] at hC
  have hj : j < k := by
    by_contra hjk
    push_neg at hjk
    have hmono : minChunkSize * 2 ^ k ≤ minChunkSize * 2 ^ j :=
      Nat.mul_le_mul_left _ (Nat.pow_le_pow_right (by norm_num) hjk)
    omega
  exact hall j hj

/-- Witness for `chunkSize_guard_minimal`: at S = 5242880000 the chunk
size minChunkSize·2^0 is a power-of-two multiple of the minimum that is
strictly below the chosen chunk size, and indeed S/C ≥ listPartsMax
there. -/
theorem chunkSize_guard_minimal_witness :
    listPartsMax ≤ 5242880000 / (minChunkSize * 2 ^ 0) :=
  (chunkSize_guard_minimal 5242880000).2.2 (minChunkSize * 2 ^ 0) ⟨0, rfl⟩
    (by rw [deriveChunkSize_5GB]; norm_num [minChunkSize])


/-- Claim C2: `WriteStream(path, offset, size, reader)` returns
`InvalidOffsetError` exactly when the offset exceeds
`len(existingParts) * chunkSize`, or when `offset < size` and the
offset is not an exact multiple of `chunkSize`; in particular every
offset `O < S` that is not a multiple of the chunk size derived for `S`
fails with `InvalidOffset` (the right-to-left direction with the second
disjunct). -/
theorem writeStream_invalidOffset_iff (putPart : Nat → Nat → Except StoreErr Part)
    (complete : List Part → Except StoreErr Unit) (path : String)
    (offset size : Nat) (events : List ReadResult) (parts : List Part) :
    (WriteStream (Except.ok parts) putPart complete path offset size events).result =
      Except.error (DriverError.invalidOffset path offset) ↔
    (parts.length * deriveChunkSize size < offset ∨
      (offset < size ∧ offset % deriveChunkSize size ≠ 0)) := by
  by_cases hcond : parts.length * deriveChunkSize size < offset ∨
      (offset < size ∧ offset % deriveChunkSize size ≠ 0)
  · simp only [WriteStream, if_pos hcond]
    exact iff_of_true trivial hcond
  · simp only [WriteStream, if_neg hcond]
    constructor
    · intro h
      exfalso
      split at h
      · exact writeLoop_ne_invalidOffset putPart complete _ size events _ offset _ path offset h
      · exact writeLoop_ne_invalidOffset putPart complete _ size events 1 0 parts path offset h
    · intro h
      exact absurd h hcond

/-- Claim C3: when existing parts are present and the offset passes
validation, `WriteStream` resumes at part number
`offset / chunkSize + 1`, truncates the known-parts list to the first
`offset / chunkSize` parts, and sets the running total-read counter to
`offset` (first conjunct: the call equals running the streaming loop
from exactly that resume state). Concretely (remaining conjuncts), for
size = 12MB the chunk size is 5MB, and with two existing 5MB parts a
resume at offset = 10MB uploads only part 3 (the trailing 2MB) and
completes the session with parts of 5MB, 5MB, 2MB. -/
theorem writeStream_resume (putPart : Nat → Nat → Except StoreErr Part)
    (complete : List Part → Except StoreErr Unit) (path : String)
    (offset size : Nat) (events : List ReadResult) (parts : List Part) :
    (0 < parts.length →
      ¬(parts.length * deriveChunkSize size < offset ∨
        (offset < size ∧ offset % deriveChunkSize size ≠ 0)) →
      WriteStream (Except.ok parts) putPart complete path offset size events =
        writeLoop putPart complete (deriveChunkSize size) size
          (offset / deriveChunkSize size + 1) offset
          (parts.take (offset / deriveChunkSize size)) events) ∧
    deriveChunkSize 12582912 = 5242880 ∧
    WriteStream (Except.ok [⟨1, 5242880, ""⟩, ⟨2, 5242880, ""⟩])
        (fun n len => Except.ok ⟨n, len, ""⟩) (fun _ => Except.ok ()) "p"
        10485760 12582912 [⟨2097152, ReadEnd.unexpectedEOF⟩] =
      ⟨Except.ok (), [(3, 2097152)],
        some [⟨1, 5242880, ""⟩, ⟨2, 5242880, ""⟩, ⟨3, 2097152, ""⟩]⟩ := by
  refine ⟨?_, deriveChunkSize_12MB, ?_⟩
  · intro hlen hvalid
    simp only [WriteStream, if_neg hvalid, if_pos hlen]
  · simp only [WriteStream, deriveChunkSize_12MB]
    decide

/-- Witness for `writeStream_resume`: the 12MB/10MB-offset scenario
satisfies the hypotheses of the first conjunct, and the call indeed
equals the loop resumed at part 3 with the known parts truncated to 2
and the total-read counter set to the offset. -/
theorem writeStream_resume_witness :
    WriteStream (Except.ok [⟨1, 5242880, ""⟩, ⟨2, 5242880, ""⟩])
        (fun n len => Except.ok ⟨n, len, ""⟩) (fun _ => Except.ok ()) "p"
        10485760 12582912 [⟨2097152, ReadEnd.unexpectedEOF⟩] =
      writeLoop (fun n len => Except.ok ⟨n, len, ""⟩) (fun _ => Except.ok ())
        (deriveChunkSize 12582912) 12582912
        (10485760 / deriveChunkSize 12582912 + 1) 10485760
        ([⟨1, 5242880, ""⟩, ⟨2, 5242880, ""⟩].take (10485760 / deriveChunkSize 12582912))
        [⟨2097152, ReadEnd.unexpectedEOF⟩] :=
  (writeStream_resume (fun n len => Except.ok ⟨n, len, ""⟩) (fun _ => Except.ok ()) "p"
      10485760 12582912 [⟨2097152, ReadEnd.unexpectedEOF⟩]
      [⟨1, 5242880, ""⟩, ⟨2, 5242880, ""⟩]).1 (by decide)
    (by rw [deriveChunkSize_12MB]; decide)


/-- Claim C4 counterexample: a read that returns fewer than chunkSize
bytes while the running total-read differs from the declared size does
not always make `WriteStream` return success — if the short read
carries a fatal (non-EOF) reader error, the error is returned instead.
At path "p", offset 0, size 1, with the single read result
`(0 bytes, fatal error 7)`, the claim's conditions hold
(`0 < chunkSize` and `0 + 0 ≠ 1`) yet the result is the reader error,
not nil. -/
theorem writeStream_shortRead_can_fail :
    (WriteStream (Except.ok []) (fun n len => Except.ok ⟨n, len, ""⟩)
        (fun _ => Except.ok ()) "p" 0 1 [⟨0, ReadEnd.fail 7⟩]).result =
      Except.error (DriverError.readFatal 7) ∧
    0 < deriveChunkSize 1 ∧ (0 : Nat) + 0 ≠ 1 := by
  refine ⟨?_, ?_, by decide⟩
  · simp only [WriteStream, deriveChunkSize_one]
    decide
  · rw [deriveChunkSize_one]; decide

/-- Claim C4 (amended): whenever a read returns fewer than `chunkSize`
bytes with a non-fatal outcome (`nil`, `io.EOF` or
`io.ErrUnexpectedEOF`) and the running total-read does not equal the
declared size, the streaming loop stops without uploading the partial
buffer and `WriteStream` returns success: the outcome is nil with no
uploads issued and no completion. (A short read carrying any other
reader error instead propagates that error, s3.go:166-167.) -/
theorem writeLoop_shortRead_ok (putPart : Nat → Nat → Except StoreErr Part)
    (complete : List Part → Except StoreErr Unit) (chunkSize size : Nat)
    (partNumber totalRead : Nat) (parts : List Part) (r : ReadResult)
    (rest : List ReadResult)
    (hfatal : r.err.isFatal = false)
    (hshort : r.bytesRead < chunkSize)
    (hsize : totalRead + r.bytesRead ≠ size) :
    writeLoop putPart complete chunkSize size partNumber totalRead parts (r :: rest) =
      ⟨Except.ok (), [], none⟩ := by
  obtain ⟨bytesRead, err⟩ := r
  cases err with
  | fail e => simp [ReadEnd.isFatal] at hfatal
  | ok => simp_all [writeLoop]
  | eof => simp_all [writeLoop]
  | unexpectedEOF => simp_all [writeLoop]

/-- Witness for `writeLoop_shortRead_ok`: a zero-byte EOF read with
5 bytes still owed stops the loop successfully with nothing uploaded. -/
theorem writeLoop_shortRead_ok_witness :
    writeLoop (fun n len => Except.ok ⟨n, len, ""⟩) (fun _ => Except.ok ()) 5 5 1 0 []
        [⟨0, ReadEnd.eof⟩] = ⟨Except.ok (), [], none⟩ :=
  writeLoop_shortRead_ok (fun n len => Except.ok ⟨n, len, ""⟩) (fun _ => Except.ok ())
    5 5 1 0 [] ⟨0, ReadEnd.eof⟩ [] (by decide) (by decide) (by decide)

/-- Claim C5 counterexample: a failure of the session-completion call is
not reported to the caller. Writing the single full 5242880-byte part
of a size-5242880 stream with a completion call that fails with a store
error still makes `WriteStream` return nil (the Go code discards the
result of `multi.Complete(parts)`, s3.go:178). -/
theorem writeStream_completeError_ignored :
    (WriteStream (Except.ok []) (fun n len => Except.ok ⟨n, len, ""⟩)
        (fun _ => Except.error (StoreErr.other 9)) "p" 0 5242880
        [⟨5242880, ReadEnd.ok⟩]).result = Except.ok () := by
  simp only [WriteStream, deriveChunkSize_5MB]
  decide

/-- Claim C5 (amended): a store-level error during a part upload makes
the streaming loop return that error immediately — no further uploads
are issued and no completion happens (first conjunct); any error result
of the loop leaves the session open, i.e. completion was never issued
(second conjunct); but the completion call's outcome is ignored: once
the final part uploads successfully the loop returns nil and reports
the full parts list as completed regardless of what `complete` returns
(third conjunct, with `complete` universally quantified). -/
theorem writeLoop_storeError_aborts (putPart : Nat → Nat → Except StoreErr Part)
    (complete : List Part → Except StoreErr Unit) (chunkSize size : Nat)
    (partNumber totalRead : Nat) (parts : List Part) (r : ReadResult)
    (rest : List ReadResult) (e : StoreErr) (part : Part) :
    (r.err.isFatal = false →
      ¬(r.bytesRead < chunkSize ∧ totalRead + r.bytesRead ≠ size) →
      putPart partNumber r.bytesRead = Except.error e →
      writeLoop putPart complete chunkSize size partNumber totalRead parts (r :: rest) =
        ⟨Except.error (DriverError.store e), [], none⟩) ∧
    (∀ (events : List ReadResult) (err : DriverError),
      (writeLoop putPart complete chunkSize size partNumber totalRead parts events).result =
        Except.error err →
      (writeLoop putPart complete chunkSize size partNumber totalRead parts events).completed =
        none) ∧
    (r.err.isFatal = false →
      ¬(r.bytesRead < chunkSize ∧ totalRead + r.bytesRead ≠ size) →
      putPart partNumber r.bytesRead = Except.ok part →
      totalRead + r.bytesRead = size →
      writeLoop putPart complete chunkSize size partNumber totalRead parts (r :: rest) =
        ⟨Except.ok (), [(partNumber, r.bytesRead)], some (parts ++ [part])⟩) := by
  obtain ⟨bytesRead, err⟩ := r
  refine ⟨?_, ?_, ?_⟩
  · intro hfatal hcond hput
    cases err with
    | fail e => simp [ReadEnd.isFatal] at hfatal
    | ok => simp_all [writeLoop]
    | eof => simp_all [writeLoop]
    | unexpectedEOF => simp_all [writeLoop]
  · intro events errv
    exact writeLoop_error_completed_none putPart complete chunkSize size events
      partNumber totalRead parts errv
  · intro hfatal hcond hput hsize
    cases err with
    | fail e => simp [ReadEnd.isFatal] at hfatal
    | ok => simp_all [writeLoop]
    | eof => simp_all [writeLoop]
    | unexpectedEOF => simp_all [writeLoop]

/-- Witness for `writeLoop_storeError_aborts`: with chunk size 5 and
size 5, a failing `PutPart` on a full read aborts with the store error
and no uploads or completion; with a succeeding `PutPart` the loop
completes and returns nil even though the completion call fails; and
the aborted run indeed left the session uncompleted. -/
theorem writeLoop_storeError_aborts_witness :
    writeLoop (fun _ _ => Except.error (StoreErr.other 3)) (fun _ => Except.ok ()) 5 5 1 0 []
        [⟨5, ReadEnd.ok⟩] = ⟨Except.error (DriverError.store (StoreErr.other 3)), [], none⟩ ∧
    writeLoop (fun n len => Except.ok ⟨n, len, ""⟩) (fun _ => Except.error (StoreErr.other 9))
        5 5 1 0 [] [⟨5, ReadEnd.ok⟩] = ⟨Except.ok (), [(1, 5)], some [⟨1, 5, ""⟩]⟩ ∧
    (writeLoop (fun _ _ => Except.error (StoreErr.other 3)) (fun _ => Except.ok ()) 5 5 1 0 []
        [⟨5, ReadEnd.ok⟩]).completed = none :=
  ⟨(writeLoop_storeError_aborts (fun _ _ => Except.error (StoreErr.other 3))
      (fun _ => Except.ok ()) 5 5 1 0 [] ⟨5, ReadEnd.ok⟩ [] (StoreErr.other 3) ⟨1, 5, ""⟩).1
      (by decide) (by decide) rfl,
   (writeLoop_storeError_aborts (fun n len => Except.ok ⟨n, len, ""⟩)
      (fun _ => Except.error (StoreErr.other 9)) 5 5 1 0 [] ⟨5, ReadEnd.ok⟩ []
      (StoreErr.other 3) ⟨1, 5, ""⟩).2.2 (by decide) (by decide) rfl rfl,
   (writeLoop_storeError_aborts (fun _ _ => Except.error (StoreErr.other 3))
      (fun _ => Except.ok ()) 5 5 1 0 [] ⟨5, ReadEnd.ok⟩ [] (StoreErr.other 3) ⟨1, 5, ""⟩).2.1
      [⟨5, ReadEnd.ok⟩] (DriverError.store (StoreErr.other 3)) (by decide)⟩


/-- Claim C7: `CurrentSize` returns
`(partCount - 1) * firstPartSize + lastPartSize` when the resolved
session has at least one part (first conjunct), and 0 when it has none
(second conjunct); and, since a partial write commits only whole
uniformly-sized parts and never uploads a trailing incomplete chunk,
when all parts share one size `CurrentSize` equals the total number of
bytes committed as whole parts, i.e. the sum of the part sizes (third
conjunct). The final conjuncts check the partial-write scenario
concretely: a 12MB write that dies after one full 5MB chunk commits
exactly part 1 of 5242880 bytes with no completion, and `CurrentSize`
of that session is 5242880 — the trailing never-uploaded 2MB chunk is
excluded. -/
theorem currentSize_spec (parts : List Part) (c : Nat) :
    (∀ h : parts ≠ [],
      CurrentSize (Except.ok parts) =
        Except.ok ((parts.length - 1) * (parts.head h).size + (parts.getLast h).size)) ∧
    CurrentSize (Except.ok []) = Except.ok 0 ∧
    ((∀ p ∈ parts, p.size = c) →
      CurrentSize (Except.ok parts) = Except.ok ((parts.map Part.size).sum)) ∧
    WriteStream (Except.ok []) (fun n len => Except.ok ⟨n, len, ""⟩) (fun _ => Except.ok ())
        "p" 0 12582912 [⟨5242880, ReadEnd.ok⟩, ⟨0, ReadEnd.eof⟩] =
      ⟨Except.ok (), [(1, 5242880)], none⟩ ∧
    CurrentSize (Except.ok [⟨1, 5242880, ""⟩]) = Except.ok 5242880 := by
  refine ⟨?_, rfl, ?_, ?_, by decide⟩
  · intro h
    match parts, h with
    | p :: ps, _ => simp [CurrentSize]
  · intro hall
    cases parts with
    | nil => simp [CurrentSize]
    | cons p ps =>
      have hp : p.size = c := hall p (by simp)
      have hl : ((p :: ps).getLast (List.cons_ne_nil p ps)).size = c :=
        hall _ (List.getLast_mem _)
      have hsum : ((p :: ps).map Part.size).sum = (p :: ps).length * c := by
        rw [List.sum_eq_card_nsmul ((p :: ps).map Part.size) c]
        · simp [smul_eq_mul]
        · intro x hx
          obtain ⟨q, hq, rfl⟩ := List.mem_map.mp hx
          exact hall q hq
      simp only [CurrentSize, hl, hsum, hp, List.length_cons, Nat.add_sub_cancel]
      congr 1
      ring
  · simp only [WriteStream, deriveChunkSize_12MB]
    decide

/-- Witness for `currentSize_spec`: for the single-part session
committed by the partial 12MB write, all parts share size 5242880, and
`CurrentSize` equals the sum of the committed part sizes. -/
theorem currentSize_spec_witness :
    CurrentSize (Except.ok [(⟨1, 5242880, ""⟩ : Part)]) =
      Except.ok ((([(⟨1, 5242880, ""⟩ : Part)]).map Part.size).sum) :=
  (currentSize_spec [⟨1, 5242880, ""⟩] 5242880).2.2.1 (by decide)

/-- Claim C8, evaluated at the failing input (the claim itself is right
about the intended behaviour; the code deviates): when the multipart
listing is non-empty but contains only sessions for other keys,
`getHighestIDMulti` returns `.ok none` — the Go function returns a nil
`*s3.Multi` with a nil error instead of initiating a new session (the
available `InitMulti` outcome is never used), and its caller
`getAllParts` then calls `multi.ListParts()` on the nil pointer and
panics (first conjunct). A new session is initiated only when the
listing is completely empty (second conjunct), and among exact key
matches the session with the highest upload identifier is selected
(third conjunct). -/
theorem getHighestIDMulti_no_exact_match :
    getHighestIDMulti ([⟨"other", "u1"⟩], none) (Except.ok ⟨"a", "new"⟩) "a" =
      Except.ok none ∧
    getHighestIDMulti ([], none) (Except.ok ⟨"a", "new"⟩) "a" =
      Except.ok (some ⟨"a", "new"⟩) ∧
    getHighestIDMulti ([⟨"a", "u1"⟩, ⟨"a", "u3"⟩, ⟨"a", "u2"⟩, ⟨"b", "u9"⟩], none)
        (Except.ok ⟨"a", "new"⟩) "a" = Except.ok (some ⟨"a", "u3"⟩) := by
  refine ⟨by decide, by decide, by decide⟩

/-- Claim C9, evaluated at the failing input (the claim itself is right
about the intended error propagation; the code deviates): with one
object "a/x" under path "a" and every `DelMulti` call failing with a
store error, `Delete` returns nil — the batch-delete error is swallowed
by the `return nil` at s3.go:269-271 rather than returned (first
conjunct). The `PathNotFound` half of the claim does hold: an initial
listing error (second conjunct) or an empty initial listing (third
conjunct) yields `PathNotFound`. -/
theorem delete_swallows_delMulti_error :
    Delete none (some (StoreErr.other 3)) ["a/x"] "a" = Except.ok () ∧
    Delete (some (StoreErr.other 3)) none ["a/x"] "a" =
      Except.error (DriverError.pathNotFound "a") ∧
    Delete none none ["b/x"] "a" = Except.error (DriverError.pathNotFound "a") := by
  refine ⟨?_, rfl, ?_⟩
  · have hb : bucketList ["a/x"] "a" = ["a/x"] := by decide
    simp only [Delete]
    rw [deleteLoop]
    simp [hb]
  · have hb : bucketList ["b/x"] "a" = [] := by decide
    simp [Delete, hb]

/-- Claim C10: `List` is only defined for a non-empty path: for the
empty string the first step, inspecting the last byte
`path[len(path)-1]` to decide whether to append the "/" separator,
indexes out of bounds and the operation panics (modelled as `none`)
instead of returning a result or an error; for every non-empty path the
step succeeds, so callers must establish non-emptiness as a
precondition. -/
theorem list_empty_path_panics :
    listPathSlash "" = none ∧
    ∀ path : String, path ≠ "" → (listPathSlash path).isSome = true := by
  refine ⟨rfl, ?_⟩
  intro path hne
  obtain ⟨l⟩ := path
  cases l with
  | nil => exact absurd rfl hne
  | cons c cs =>
    rcases hg : (String.mk (c :: cs)).data.get? ((String.mk (c :: cs)).data.length - 1)
      with _ | d
    · exfalso
      rw [List.get?_eq_none] at hg
      simp at hg
    · simp [listPathSlash, hg]

/-- Witness for `list_empty_path_panics`: the non-empty path "a"
survives the separator-normalization step. -/
theorem list_empty_path_panics_witness :
    (listPathSlash "a").isSome = true :=
  list_empty_path_panics.2 "a" (by decide)

end S3
